import Mathlib

/-! Shallow embedding of the SQLAlchemy e-commerce repository layer:
`create_models.py` (table definitions), `query_orm.py` (the `Repo` façade)
and the two alembic revision files.  Tables are lists of rows, the
server-side clock (`func.now()`) is a logical timestamp carried by the
database state, and each `Repo` method becomes a function on that state.
PostgreSQL `INSERT .. ON CONFLICT (..) DO UPDATE SET .. RETURNING` is
modelled as: find a conflicting row; if none, append the new row; else
update exactly the columns listed in `set_` on the conflicting row and
return it.  Per the documented behaviour of SQLAlchemy's
`on_conflict_do_update`, column-level `onupdate` defaults (such as
`TimestampMixin.updated_at`) are NOT applied on the conflict path unless
they appear in `set_` — the SET clause is exactly the `set_` dictionary.
Value-domain constraints that no claim is about (VARCHAR length limits,
referential checks on foreign keys) are not modelled; inputs are assumed
to satisfy them. -/

namespace SqlRepo

/-- Server-side timestamps (`func.now()`) as a logical clock. -/
abbrev Timestamp := Nat

/-- A row of the `users` table (`create_models.User` + `TimestampMixin`). -/
structure UserRow where
  telegram_id : Int
  full_name : String
  user_name : Option String
  phone_number : Option String
  language_code : String
  referrer_id : Option Int
  created_at : Timestamp
  updated_at : Timestamp
  deriving DecidableEq

/-- A row of the `products` table.  `price` is the DECIMAL(16,4) value in
units of one ten-thousandth, modelled as an integer. -/
structure ProductRow where
  product_id : Int
  title : String
  description : Option String
  price : Int
  created_at : Timestamp
  updated_at : Timestamp
  deriving DecidableEq

/-- A row of the `orders` table. -/
structure OrderRow where
  order_id : Int
  user_id : Int
  created_at : Timestamp
  updated_at : Timestamp
  deriving DecidableEq

/-- A row of the `orderproducts` junction table (no `TimestampMixin` on
`OrderProduct` in `create_models.py`). -/
structure OrderProductRow where
  order_id : Int
  product_id : Int
  quantity : Int
  deriving DecidableEq

/-- The database state: the four tables, the generated-key counters for the
two autoincrement primary keys, and the server clock. -/
structure DB where
  users : List UserRow
  products : List ProductRow
  orders : List OrderRow
  order_products : List OrderProductRow
  next_product_id : Int
  next_order_id : Int
  now : Timestamp
  deriving DecidableEq

/-- Constraint-violation errors raised by the database driver and surfaced
unchanged by the façade (no try/except anywhere in `query_orm.py`). -/
inductive DbError where
  | uniqueViolation (constraint_name : String)
  deriving DecidableEq

/-- `Repo.add_user`: a plain `insert(User).values(...)` followed by commit.
No conflict handling: a duplicate `telegram_id` violates the `users`
primary key and the driver's error propagates to the caller.  The Python
method returns `None`, so the model returns only the new state. -/
def add_user (db : DB) (telegram_id : Int) (full_name : String)
    (language_code : String) (username : Option String)
    (phone_number : Option String) (referrer_id : Option Int) :
    Except DbError DB :=
  if db.users.any (fun u => u.telegram_id == telegram_id) then
    Except.error (DbError.uniqueViolation "users_pkey")
  else
    Except.ok { db with users := db.users ++
      [{ telegram_id := telegram_id, full_name := full_name, user_name := username,
         phone_number := phone_number, language_code := language_code,
         referrer_id := referrer_id, created_at := db.now, updated_at := db.now }] }

/-- `Repo.add_user_combined`: `insert(User).values(...).on_conflict_do_update(
index_elements=[User.telegram_id], set_=dict(user_name=.., full_name=..))
.returning(User)`, then `scalars(..).first()`.  On conflict exactly the two
`set_` columns change; on no conflict the full row is inserted with both
timestamps taken from the server clock (`server_default=func.now()`). -/
def add_user_combined (db : DB) (telegram_id : Int) (full_name : String)
    (language_code : String) (username : Option String)
    (phone_number : Option String) (referrer_id : Option Int) :
    Option UserRow × DB :=
  match db.users.find? (fun u => u.telegram_id == telegram_id) with
  | some _ =>
      let users := db.users.map (fun u =>
        if u.telegram_id == telegram_id then
          { u with user_name := username, full_name := full_name }
        else u)
      (users.find? (fun u => u.telegram_id == telegram_id), { db with users := users })
  | none =>
      let row : UserRow :=
        { telegram_id := telegram_id, full_name := full_name, user_name := username,
          phone_number := phone_number, language_code := language_code,
          referrer_id := referrer_id, created_at := db.now, updated_at := db.now }
      (some row, { db with users := db.users ++ [row] })

/-- `Repo.get_user_by_id`: `select(User).where(User.telegram_id == ..)` with
`result.scalars().first()` — the first matching row or `none`; a total
function, it never raises for "not found". -/
def get_user_by_id (db : DB) (telegram_id : Int) : Option UserRow :=
  db.users.find? (fun u => u.telegram_id == telegram_id)

/-- `Repo.get_user_language_code`: `select(User.language_code).where(..)`
with `result.scalar()` — the scalar of the first row, or `none` when no row
matches. -/
def get_user_language_code (db : DB) (telegram_id : Int) : Option String :=
  (db.users.find? (fun u => u.telegram_id == telegram_id)).map
    (fun u => u.language_code)

/-- leadMatch pat cs: pat occurs character-for-character at the head of cs. -/
def leadMatch : List Char → List Char → Bool
  | [], _ => true
  | _ :: _, [] => false
  | p :: ps, c :: cs => p == c && leadMatch ps cs

/-- hasRun pat cs: pat occurs contiguously somewhere in cs. -/
def hasRun (pat : List Char) : List Char → Bool
  | [] => leadMatch pat []
  | c :: cs => leadMatch pat (c :: cs) || hasRun pat cs

/-- SQL `ilike` with the pattern enclosed in percent signs: case-insensitive
substring test.  A NULL column never matches (`NULL ILIKE ..` is NULL, which
`WHERE` drops). -/
def ilikeContains (pat : String) : Option String → Bool
  | none => false
  | some s => hasRun pat.toLower.toList s.toLower.toList

/-- The group keys of a SQL `GROUP BY key` over a list of already-joined
rows: the distinct key values in first-appearance order. -/
def groupKeys (key : α → Int) (rows : List α) : List Int :=
  (rows.map key).dedup

/-- `Repo.get_all_users_advanced`: `select(User).where(or_(language_code ==
'en', language_code == 'uk'), user_name.ilike('%john%'))
.order_by(created_at.desc()).limit(10).having(telegram_id > 0)
.group_by(telegram_id)`.  SQL evaluation order: WHERE, then GROUP BY
(`telegram_id` is the primary key, so each group is the single row that
`find?` recovers), then HAVING, then ORDER BY, then LIMIT. -/
def get_all_users_advanced (db : DB) : List UserRow :=
  let matched := db.users.filter (fun u =>
    (u.language_code == "en" || u.language_code == "uk") &&
    ilikeContains "john" u.user_name)
  let grouped := (groupKeys (fun u => u.telegram_id) matched).filterMap
    (fun k => matched.find? (fun u => u.telegram_id == k))
  (((grouped.filter (fun u => decide (0 < u.telegram_id))).mergeSort
    (fun a b => decide (b.created_at ≤ a.created_at))).take 10)

/-- `Repo.add_order`: `insert(Order).values(user_id=..).returning(Order)`.
No conflict handling; `order_id` is the generated primary key and both
timestamps come from the server clock. -/
def add_order (db : DB) (user_id : Int) : Option OrderRow × DB :=
  let row : OrderRow :=
    { order_id := db.next_order_id, user_id := user_id,
      created_at := db.now, updated_at := db.now }
  (some row,
   { db with
      orders := db.orders ++ [row]
      next_order_id := db.next_order_id + 1 })

/-- `Repo.add_product`: `insert(Product).values(title=.., description=..,
price=..).on_conflict_do_update(index_elements=[Product.title],
set_=dict(price=price)).returning(Product)`.  On conflict with the unique
`title` only `price` changes; `description` and the timestamps keep the
values of the existing row. -/
def add_product (db : DB) (title : String) (description : String)
    (price : Int) : Option ProductRow × DB :=
  match db.products.find? (fun p => p.title == title) with
  | some _ =>
      let products := db.products.map (fun p =>
        if p.title == title then { p with price := price } else p)
      (products.find? (fun p => p.title == title), { db with products := products })
  | none =>
      let row : ProductRow :=
        { product_id := db.next_product_id, title := title,
          description := some description, price := price,
          created_at := db.now, updated_at := db.now }
      (some row,
       { db with
          products := db.products ++ [row]
          next_product_id := db.next_product_id + 1 })

/-- `Repo.add_order_product`: upsert keyed by the composite primary key
`(order_id, product_id)`; on conflict only `quantity` changes
(`set_=dict(quantity=quantity)`). -/
def add_order_product (db : DB) (order_id : Int) (product_id : Int)
    (quantity : Int) : Option OrderProductRow × DB :=
  match db.order_products.find?
      (fun r => r.order_id == order_id && r.product_id == product_id) with
  | some _ =>
      let rows := db.order_products.map (fun r =>
        if r.order_id == order_id && r.product_id == product_id then
          { r with quantity := quantity }
        else r)
      (rows.find? (fun r => r.order_id == order_id && r.product_id == product_id),
       { db with order_products := rows })
  | none =>
      let row : OrderProductRow :=
        { order_id := order_id, product_id := product_id, quantity := quantity }
      (some row, { db with order_products := db.order_products ++ [row] })

/-- `Repo.get_all_user_orders_user_full`: `select(Order, User)
.join(User.orders).where(User.telegram_id == ..)` — the inner join of
`users` and `orders` along `orders.user_id = users.telegram_id`, one
`(Order, User)` row per order of the requested user. -/
def get_all_user_orders_user_full (db : DB) (telegram_id : Int) :
    List (OrderRow × UserRow) :=
  (db.users.filter (fun u => u.telegram_id == telegram_id)).flatMap (fun u =>
    (db.orders.filter (fun o => o.user_id == u.telegram_id)).map (fun o => (o, u)))

/-- `Repo.get_all_user_orders_user_only_user_name`: the same join with only
`User.user_name` projected next to the full `Order`. -/
def get_all_user_orders_user_only_user_name (db : DB) (telegram_id : Int) :
    List (OrderRow × Option String) :=
  (db.users.filter (fun u => u.telegram_id == telegram_id)).flatMap (fun u =>
    (db.orders.filter (fun o => o.user_id == u.telegram_id)).map
      (fun o => (o, u.user_name)))

/-- `Repo.get_all_user_orders_relationships`: `select(Product, Order,
User.user_name, OrderProduct.quantity).join(User.orders)
.join(Order.products).join(Product).where(User.telegram_id == ..)` — the
four-way inner join walked from `users` through the declared
relationships. -/
def get_all_user_orders_relationships (db : DB) (telegram_id : Int) :
    List (ProductRow × OrderRow × Option String × Int) :=
  (db.users.filter (fun u => u.telegram_id == telegram_id)).flatMap (fun u =>
    (db.orders.filter (fun o => o.user_id == u.telegram_id)).flatMap (fun o =>
      (db.order_products.filter (fun op => op.order_id == o.order_id)).flatMap
        (fun op =>
          (db.products.filter (fun p => p.product_id == op.product_id)).map
            (fun p => (p, o, u.user_name, op.quantity)))))

/-- `Repo.get_all_user_orders_no_relationships`: the same four-way inner
join spelled with explicit `select_from(Product).join(OrderProduct)
.join(Order).join(User)`, walked from `products` instead. -/
def get_all_user_orders_no_relationships (db : DB) (telegram_id : Int) :
    List (ProductRow × OrderRow × Option String × Int) :=
  db.products.flatMap (fun p =>
    (db.order_products.filter (fun op => op.product_id == p.product_id)).flatMap
      (fun op =>
        (db.orders.filter (fun o => o.order_id == op.order_id)).flatMap (fun o =>
          (db.users.filter (fun u =>
              u.telegram_id == o.user_id && u.telegram_id == telegram_id)).map
            (fun u => (p, o, u.user_name, op.quantity)))))

/-- The joined rows behind `Repo.get_total_number_of_orders_by_user`:
`orders` inner-joined with `users`. -/
def ordersJoinUsers (db : DB) : List (OrderRow × UserRow) :=
  db.orders.flatMap (fun o =>
    (db.users.filter (fun u => u.telegram_id == o.user_id)).map (fun u => (o, u)))

/-- `Repo.get_total_number_of_orders_by_user`:
`select(func.count(Order.order_id), User.telegram_id).join(User)
.group_by(User.telegram_id)` — one `(count, telegram_id)` row per group of
the inner join; users without orders produce no join row, hence no group. -/
def get_total_number_of_orders_by_user (db : DB) : List (Nat × Int) :=
  (groupKeys (fun r => r.2.telegram_id) (ordersJoinUsers db)).map (fun k =>
    (((ordersJoinUsers db).filter (fun r => r.2.telegram_id == k)).length, k))

/-- The joined rows behind the two product-count reports: `orderproducts`
inner-joined with `orders` (on `order_id`) and `users`. -/
def orderProductsJoinOrdersUsers (db : DB) :
    List (OrderProductRow × OrderRow × UserRow) :=
  db.order_products.flatMap (fun op =>
    (db.orders.filter (fun o => o.order_id == op.order_id)).flatMap (fun o =>
      (db.users.filter (fun u => u.telegram_id == o.user_id)).map
        (fun u => (op, o, u))))

/-- `Repo.get_count_of_products_by_user`:
`select(func.sum(OrderProduct.quantity).label('quantity'),
User.full_name.label('name')).join(Order, ..).join(User)
.group_by(User.telegram_id)`.  Each group key is a `telegram_id` with at
least one joined row; `full_name` is functionally determined by the group
key (the primary key), recovered here from the group's first row — the
empty-group default is never taken. -/
def get_count_of_products_by_user (db : DB) : List (Int × String) :=
  (groupKeys (fun r => r.2.2.telegram_id) (orderProductsJoinOrdersUsers db)).map
    (fun k =>
      let grp := (orderProductsJoinOrdersUsers db).filter
        (fun r => r.2.2.telegram_id == k)
      ((grp.map (fun r => r.1.quantity)).sum,
       match grp.head? with
       | some r => r.2.2.full_name
       | none => ""))

/-- `Repo.get_count_of_products_greater_than_x_by_user`: the same grouped
sum with `having(func.sum(OrderProduct.quantity) > greater_than)` filtering
the groups after aggregation. -/
def get_count_of_products_greater_than_x_by_user (db : DB)
    (greater_than : Int) : List (Int × String) :=
  ((groupKeys (fun r => r.2.2.telegram_id) (orderProductsJoinOrdersUsers db)).filter
      (fun k =>
        decide (greater_than <
          ((((orderProductsJoinOrdersUsers db).filter
              (fun r => r.2.2.telegram_id == k)).map (fun r => r.1.quantity)).sum)))).map
    (fun k =>
      let grp := (orderProductsJoinOrdersUsers db).filter
        (fun r => r.2.2.telegram_id == k)
      ((grp.map (fun r => r.1.quantity)).sum,
       match grp.head? with
       | some r => r.2.2.full_name
       | none => ""))

/-- A column of a live table, as the alembic operations see it. -/
structure Column where
  name : String
  data_type : String
  nullable : Bool
  deriving DecidableEq

/-- A named unique constraint on a live table. -/
structure UniqueConstraint where
  name : String
  columns : List String
  deriving DecidableEq

/-- A live table: its name, columns and unique constraints. -/
structure TableSchema where
  name : String
  columns : List Column
  uniques : List UniqueConstraint
  deriving DecidableEq

/-- The live schema the migration deltas are applied to. -/
structure Schema where
  tables : List TableSchema
  deriving DecidableEq

/-- Failures of the alembic schema operations (PostgreSQL rejects adding an
existing column, dropping a missing one, and so on). -/
inductive MigrationError where
  | noSuchTable
  | duplicateColumn
  | noSuchColumn
  | duplicateConstraint
  | noSuchConstraint
  deriving DecidableEq

/-- `op.add_column(table_name, column)`: append the column to the named
table; error if the table is missing or already has a column of that
name. -/
def op_add_column (s : Schema) (table_name : String) (c : Column) :
    Except MigrationError Schema :=
  match s.tables.find? (fun t => t.name == table_name) with
  | none => Except.error MigrationError.noSuchTable
  | some t =>
      if t.columns.any (fun col => col.name == c.name) then
        Except.error MigrationError.duplicateColumn
      else
        Except.ok ⟨s.tables.map (fun t' =>
          if t'.name == table_name then { t' with columns := t'.columns ++ [c] }
          else t')⟩

/-- `op.drop_column(table_name, column_name)`: remove the named column;
error if the table or the column is missing. -/
def op_drop_column (s : Schema) (table_name : String) (column_name : String) :
    Except MigrationError Schema :=
  match s.tables.find? (fun t => t.name == table_name) with
  | none => Except.error MigrationError.noSuchTable
  | some t =>
      if t.columns.any (fun col => col.name == column_name) then
        Except.ok ⟨s.tables.map (fun t' =>
          if t'.name == table_name then
            { t' with columns := t'.columns.filter (fun col => col.name != column_name) }
          else t')⟩
      else Except.error MigrationError.noSuchColumn

/-- `op.create_unique_constraint(constraint_name, table_name, columns)`:
record the named unique constraint; error if the table is missing or a
constraint of that name exists. -/
def op_create_unique_constraint (s : Schema) (constraint_name : String)
    (table_name : String) (columns : List String) : Except MigrationError Schema :=
  match s.tables.find? (fun t => t.name == table_name) with
  | none => Except.error MigrationError.noSuchTable
  | some t =>
      if t.uniques.any (fun uc => uc.name == constraint_name) then
        Except.error MigrationError.duplicateConstraint
      else
        Except.ok ⟨s.tables.map (fun t' =>
          if t'.name == table_name then
            { t' with uniques := t'.uniques ++ [⟨constraint_name, columns⟩] }
          else t')⟩

/-- `op.drop_constraint(constraint_name, table_name)`: remove the named
constraint; error if the table or the constraint is missing. -/
def op_drop_constraint (s : Schema) (constraint_name : String)
    (table_name : String) : Except MigrationError Schema :=
  match s.tables.find? (fun t => t.name == table_name) with
  | none => Except.error MigrationError.noSuchTable
  | some t =>
      if t.uniques.any (fun uc => uc.name == constraint_name) then
        Except.ok ⟨s.tables.map (fun t' =>
          if t'.name == table_name then
            { t' with uniques := t'.uniques.filter (fun uc => uc.name != constraint_name) }
          else t')⟩
      else Except.error MigrationError.noSuchConstraint

/-- Revision `436f06e6408d` upgrade: add the nullable `phone_number`
VARCHAR(50) column to `users`. -/
def upgrade_436f06e6408d (s : Schema) : Except MigrationError Schema :=
  op_add_column s "users" ⟨"phone_number", "VARCHAR(50)", true⟩

/-- Revision `436f06e6408d` downgrade: drop `users.phone_number`. -/
def downgrade_436f06e6408d (s : Schema) : Except MigrationError Schema :=
  op_drop_column s "users" "phone_number"

/-- Revision `fc2f1e36c98c` upgrade: create the `products_title_key` unique
constraint on `products.title`. -/
def upgrade_fc2f1e36c98c (s : Schema) : Except MigrationError Schema :=
  op_create_unique_constraint s "products_title_key" "products" ["title"]

/-- Revision `fc2f1e36c98c` downgrade: drop `products_title_key` from
`products`. -/
def downgrade_fc2f1e36c98c (s : Schema) : Except MigrationError Schema :=
  op_drop_constraint s "products_title_key" "products"

/-! Helper lemmas about the `find?`/`filter`/conditional-`map` combinators
that realise the WHERE clause, the conflict check and the conflict-path
UPDATE of the upserts. -/

/-- `find?` is the head of `filter`. -/
theorem find?_eq_head_of_filter (p : α → Bool) (l : List α) :
    l.find? p = (l.filter p).head? := by
  induction l with
  | nil => rfl
  | cons a l ih =>
    by_cases h : p a
    · rw [List.find?_cons_of_pos _ h, List.filter_cons_of_pos h]; rfl
    · rw [List.find?_cons_of_neg _ h, List.filter_cons_of_neg h, ih]

/-- In a list where no two elements both satisfy `p`, filtering by `p`
yields exactly the one member that satisfies it. -/
theorem filter_eq_singleton_of_uniq {p : α → Bool} {l : List α} {u : α}
    (hu : u ∈ l) (hpu : p u = true)
    (huniq : l.Pairwise (fun a b => ¬(p a = true ∧ p b = true))) :
    l.filter p = [u] := by
  induction l with
  | nil => cases hu
  | cons a l ih =>
    rcases List.pairwise_cons.mp huniq with ⟨hhead, htail⟩
    rcases List.mem_cons.mp hu with rfl | hmem
    · have htlnil : l.filter p = [] := by
        refine List.filter_eq_nil_iff.mpr (fun b hb hpb => ?_)
        exact hhead b hb ⟨hpu, hpb⟩
      simp [List.filter_cons, hpu, htlnil]
    · have hpa : p a = false := by
        rcases h : p a with _ | _
        · rfl
        · exact absurd ⟨h, hpu⟩ (hhead u hmem)
      simp [List.filter_cons, hpa, ih hmem htail]

/-- Filtering the conflict-path UPDATE (`map` of a conditional rewrite)
commutes to a `map` over the filtered rows, provided the rewrite preserves
the conflict predicate. -/
theorem filter_map_cond (p : α → Bool) (f : α → α) (l : List α)
    (hf : ∀ a, p a = true → p (f a) = true) :
    (l.map (fun a => if p a then f a else a)).filter p = (l.filter p).map f := by
  induction l with
  | nil => rfl
  | cons a l ih =>
    by_cases h : p a
    · simp [List.filter_cons, h, hf a h, ih]
    · simp [List.filter_cons, h, ih]

/-- The conflict path of an upsert: in a table where the conflict target is
unique, updating the conflicting row leaves exactly its updated image among
the rows matching the conflict predicate, and `RETURNING`/`find?` recovers
that image. -/
theorem upsert_find (p : α → Bool) (f : α → α) {l : List α} {u : α}
    (hf : ∀ a, p a = true → p (f a) = true)
    (hu : u ∈ l) (hpu : p u = true)
    (huniq : l.Pairwise (fun a b => ¬(p a = true ∧ p b = true))) :
    (l.map (fun a => if p a then f a else a)).filter p = [f u] ∧
    (l.map (fun a => if p a then f a else a)).find? p = some (f u) := by
  have hfil : (l.map (fun a => if p a then f a else a)).filter p = [f u] := by
    rw [filter_map_cond p f l hf, filter_eq_singleton_of_uniq hu hpu huniq]
    rfl
  exact ⟨hfil, by rw [find?_eq_head_of_filter, hfil]; rfl⟩

/-- C1: when a User row with the given `telegram_id` already exists,
`add_user_combined` inserts no duplicate: exactly one row for that identity
remains (it is the returned row), its `full_name` and `user_name` are the
call's arguments, and `language_code`, `phone_number` and `referrer_id`
keep the values the row had before the call. -/
theorem add_user_combined_conflict_spec (db : DB) (tid : Int) (fn lc : String)
    (un pn : Option String) (rid : Option Int) (u0 : UserRow)
    (hnd : db.users.Pairwise (fun a b => a.telegram_id ≠ b.telegram_id))
    (hmem : u0 ∈ db.users) (hid : u0.telegram_id = tid) :
    (add_user_combined db tid fn lc un pn rid).2.users.filter
        (fun u => u.telegram_id == tid) =
      [{ u0 with user_name := un, full_name := fn }] ∧
    (add_user_combined db tid fn lc un pn rid).1 =
      some { u0 with user_name := un, full_name := fn } ∧
    (add_user_combined db tid fn lc un pn rid).2.users.length = db.users.length ∧
    ({ u0 with user_name := un, full_name := fn } : UserRow).full_name = fn ∧
    ({ u0 with user_name := un, full_name := fn } : UserRow).user_name = un ∧
    ({ u0 with user_name := un, full_name := fn } : UserRow).language_code =
      u0.language_code ∧
    ({ u0 with user_name := un, full_name := fn } : UserRow).phone_number =
      u0.phone_number ∧
    ({ u0 with user_name := un, full_name := fn } : UserRow).referrer_id =
      u0.referrer_id := by
  have hpu : (fun u : UserRow => u.telegram_id == tid) u0 = true := by
    simp [hid]
  have huniq : db.users.Pairwise
      (fun a b => ¬((a.telegram_id == tid) = true ∧ (b.telegram_id == tid) = true)) := by
    refine hnd.imp ?_
    intro a b hab hcon
    rcases hcon with ⟨ha, hb⟩
    rw [beq_iff_eq] at ha hb
    exact hab (ha.trans hb.symm)
  obtain ⟨x, hx⟩ : ∃ x, db.users.find? (fun u => u.telegram_id == tid) = some x := by
    cases h : db.users.find? (fun u => u.telegram_id == tid) with
    | none => exact absurd hpu (by simpa using List.find?_eq_none.mp h u0 hmem)
    | some x => exact ⟨x, rfl⟩
  have hupd := upsert_find (fun u : UserRow => u.telegram_id == tid)
      (fun u => { u with user_name := un, full_name := fn })
      (fun a ha => by simpa using ha) hmem hpu huniq
  simp only [add_user_combined, hx]
  exact ⟨hupd.1, hupd.2, by simp, trivial, trivial, trivial, trivial, trivial⟩

/-- A concrete one-user database (clock at 5, the row created at 0) used to
exercise the conflict path of `add_user_combined`. -/
def aliceRow : UserRow := ⟨1, "Alice", some "al", some "111", "en", none, 0, 0⟩

/-- The database holding exactly `aliceRow`. -/
def aliceDB : DB := ⟨[aliceRow], [], [], [], 1, 1, 5⟩

/-- C1 witness: the conflict-path specification at a concrete database. -/
theorem add_user_combined_conflict_witness :
    (add_user_combined aliceDB 1 "Bob" "uk" (some "bobby") (some "222") (some 9)).2.users.filter
        (fun u => u.telegram_id == 1) =
      [{ aliceRow with user_name := some "bobby", full_name := "Bob" }] ∧
    (add_user_combined aliceDB 1 "Bob" "uk" (some "bobby") (some "222") (some 9)).1 =
      some { aliceRow with user_name := some "bobby", full_name := "Bob" } ∧
    (add_user_combined aliceDB 1 "Bob" "uk" (some "bobby") (some "222") (some 9)).2.users.length =
      aliceDB.users.length ∧
    ({ aliceRow with user_name := some "bobby", full_name := "Bob" } : UserRow).full_name = "Bob" ∧
    ({ aliceRow with user_name := some "bobby", full_name := "Bob" } : UserRow).user_name =
      some "bobby" ∧
    ({ aliceRow with user_name := some "bobby", full_name := "Bob" } : UserRow).language_code =
      aliceRow.language_code ∧
    ({ aliceRow with user_name := some "bobby", full_name := "Bob" } : UserRow).phone_number =
      aliceRow.phone_number ∧
    ({ aliceRow with user_name := some "bobby", full_name := "Bob" } : UserRow).referrer_id =
      aliceRow.referrer_id :=
  add_user_combined_conflict_spec aliceDB 1 "Bob" "uk" (some "bobby") (some "222") (some 9)
    aliceRow (by decide) (by decide) rfl

/-- Insert path of `add_user_combined`: with no conflicting row the full
row is inserted, both timestamps from the server clock, and returned. -/
theorem add_user_combined_insert_eq (db : DB) (tid : Int) (fn lc : String)
    (un pn : Option String) (rid : Option Int)
    (h : ∀ u ∈ db.users, u.telegram_id ≠ tid) :
    add_user_combined db tid fn lc un pn rid =
      (some ⟨tid, fn, un, pn, lc, rid, db.now, db.now⟩,
       { db with users := db.users ++ [⟨tid, fn, un, pn, lc, rid, db.now, db.now⟩] }) := by
  have hfind : db.users.find? (fun u => u.telegram_id == tid) = none :=
    List.find?_eq_none.mpr (fun x hx => by simp [h x hx])
  simp [add_user_combined, hfind]

/-- Conflict path of `add_user_combined`: the returned row is the existing
row with exactly `user_name` and `full_name` rewritten. -/
theorem add_user_combined_conflict_returns (db : DB) (tid : Int) (fn lc : String)
    (un pn : Option String) (rid : Option Int) (u0 : UserRow)
    (hnd : db.users.Pairwise (fun a b => a.telegram_id ≠ b.telegram_id))
    (hmem : u0 ∈ db.users) (hid : u0.telegram_id = tid) :
    (add_user_combined db tid fn lc un pn rid).1 =
      some { u0 with user_name := un, full_name := fn } := by
  have hpu : (fun u : UserRow => u.telegram_id == tid) u0 = true := by simp [hid]
  have huniq : db.users.Pairwise
      (fun a b => ¬((a.telegram_id == tid) = true ∧ (b.telegram_id == tid) = true)) := by
    refine hnd.imp ?_
    intro a b hab hcon
    rcases hcon with ⟨ha, hb⟩
    rw [beq_iff_eq] at ha hb
    exact hab (ha.trans hb.symm)
  obtain ⟨x, hx⟩ : ∃ x, db.users.find? (fun u => u.telegram_id == tid) = some x := by
    cases h : db.users.find? (fun u => u.telegram_id == tid) with
    | none => exact absurd hpu (by simpa using List.find?_eq_none.mp h u0 hmem)
    | some x => exact ⟨x, rfl⟩
  have hupd := upsert_find (fun u : UserRow => u.telegram_id == tid)
      (fun u => { u with user_name := un, full_name := fn })
      (fun a ha => by simpa using ha) hmem hpu huniq
  simp only [add_user_combined, hx]
  exact hupd.2

/-- Insert path of `add_product`: with no product of the given title the
full row is inserted, both timestamps from the server clock, and
returned. -/
theorem add_product_insert_eq (db : DB) (t d : String) (pr : Int)
    (h : ∀ p ∈ db.products, p.title ≠ t) :
    add_product db t d pr =
      (some ⟨db.next_product_id, t, some d, pr, db.now, db.now⟩,
       { db with
          products := db.products ++ [⟨db.next_product_id, t, some d, pr, db.now, db.now⟩]
          next_product_id := db.next_product_id + 1 }) := by
  have hfind : db.products.find? (fun p => p.title == t) = none :=
    List.find?_eq_none.mpr (fun x hx => by simp [h x hx])
  simp [add_product, hfind]

/-- Conflict path of `add_product`: in a table with pairwise-distinct
titles, the conflicting row gets exactly `price` rewritten; it is the one
row left with that title, it is returned, and no row is added. -/
theorem add_product_conflict_spec (db : DB) (t d : String) (pr : Int) (p0 : ProductRow)
    (hnd : db.products.Pairwise (fun a b => a.title ≠ b.title))
    (hmem : p0 ∈ db.products) (ht : p0.title = t) :
    (add_product db t d pr).1 = some { p0 with price := pr } ∧
    (add_product db t d pr).2.products.filter (fun p => p.title == t) =
      [{ p0 with price := pr }] ∧
    (add_product db t d pr).2.products.length = db.products.length := by
  have hpu : (fun p : ProductRow => p.title == t) p0 = true := by simp [ht]
  have huniq : db.products.Pairwise
      (fun a b => ¬((a.title == t) = true ∧ (b.title == t) = true)) := by
    refine hnd.imp ?_
    intro a b hab hcon
    rcases hcon with ⟨ha, hb⟩
    rw [beq_iff_eq] at ha hb
    exact hab (ha.trans hb.symm)
  obtain ⟨x, hx⟩ : ∃ x, db.products.find? (fun p => p.title == t) = some x := by
    cases h : db.products.find? (fun p => p.title == t) with
    | none => exact absurd hpu (by simpa using List.find?_eq_none.mp h p0 hmem)
    | some x => exact ⟨x, rfl⟩
  have hupd := upsert_find (fun p : ProductRow => p.title == t)
      (fun p => { p with price := pr })
      (fun a ha => by simpa using ha) hmem hpu huniq
  simp only [add_product, hx]
  exact ⟨hupd.2, hupd.1, by simp⟩

/-- C3 (amended): `created_at` and `updated_at` are assigned from the
server clock at insertion for User, Product and Order rows and never by
the caller — but on the conflict-update path of the upserts only the
columns of the explicit update set change, so both timestamps keep the
values of the existing row (`updated_at` is NOT refreshed there). -/
theorem timestamps_assigned_by_storage (db : DB) (tid uid : Int) (fn lc t d : String)
    (un pn : Option String) (rid : Option Int) (pr : Int) (u0 : UserRow) (p0 : ProductRow)
    (hndU : db.users.Pairwise (fun a b => a.telegram_id ≠ b.telegram_id))
    (hndP : db.products.Pairwise (fun a b => a.title ≠ b.title)) :
    ((∀ u ∈ db.users, u.telegram_id ≠ tid) →
      (add_user_combined db tid fn lc un pn rid).1.map
        (fun r => (r.created_at, r.updated_at)) = some (db.now, db.now)) ∧
    ((add_order db uid).1.map (fun r => (r.created_at, r.updated_at)) =
      some (db.now, db.now)) ∧
    ((∀ p ∈ db.products, p.title ≠ t) →
      (add_product db t d pr).1.map
        (fun r => (r.created_at, r.updated_at)) = some (db.now, db.now)) ∧
    (u0 ∈ db.users → u0.telegram_id = tid →
      (add_user_combined db tid fn lc un pn rid).1.map
        (fun r => (r.created_at, r.updated_at)) = some (u0.created_at, u0.updated_at)) ∧
    (p0 ∈ db.products → p0.title = t →
      (add_product db t d pr).1.map
        (fun r => (r.created_at, r.updated_at)) = some (p0.created_at, p0.updated_at)) := by
  refine ⟨?_, ?_, ?_, ?_, ?_⟩
  · intro h
    rw [add_user_combined_insert_eq db tid fn lc un pn rid h]
    rfl
  · rfl
  · intro h
    rw [add_product_insert_eq db t d pr h]
    rfl
  · intro hmem hid
    rw [add_user_combined_conflict_returns db tid fn lc un pn rid u0 hndU hmem hid]
    rfl
  · intro hmem ht
    rw [(add_product_conflict_spec db t d pr p0 hndP hmem ht).1]
    rfl

/-- A two-row database (clock at 5, rows created at 0) exercising the
timestamp behaviour of the upsert conflict paths. -/
def clockDB : DB :=
  ⟨[⟨1, "Alice", some "al", some "111", "en", none, 0, 0⟩],
   [⟨1, "widget", some "d", 100, 0, 0⟩], [], [], 2, 1, 5⟩

/-- C3 counterexample: on the conflict path of `add_user_combined` the
returned (and stored) row keeps its old `updated_at` — it is not refreshed
to the current server time, contrary to the claim. -/
theorem conflict_update_does_not_refresh_updated_at :
    ¬ ((add_user_combined clockDB 1 "Bob" "uk" none none none).1.map
        (fun r => r.updated_at) = some clockDB.now) := by decide

/-- C3 witness: the amended timestamp specification at a concrete
database. -/
theorem timestamps_assigned_by_storage_witness :
    ((∀ u ∈ clockDB.users, u.telegram_id ≠ 2) →
      (add_user_combined clockDB 2 "Bob" "uk" none none none).1.map
        (fun r => (r.created_at, r.updated_at)) = some (clockDB.now, clockDB.now)) ∧
    ((add_order clockDB 1).1.map (fun r => (r.created_at, r.updated_at)) =
      some (clockDB.now, clockDB.now)) ∧
    ((∀ p ∈ clockDB.products, p.title ≠ "gadget") →
      (add_product clockDB "gadget" "g" 7).1.map
        (fun r => (r.created_at, r.updated_at)) = some (clockDB.now, clockDB.now)) ∧
    ((⟨1, "Alice", some "al", some "111", "en", none, 0, 0⟩ : UserRow) ∈ clockDB.users →
      (⟨1, "Alice", some "al", some "111", "en", none, 0, 0⟩ : UserRow).telegram_id = 2 →
      (add_user_combined clockDB 2 "Bob" "uk" none none none).1.map
        (fun r => (r.created_at, r.updated_at)) = some (0, 0)) ∧
    ((⟨1, "widget", some "d", 100, 0, 0⟩ : ProductRow) ∈ clockDB.products →
      (⟨1, "widget", some "d", 100, 0, 0⟩ : ProductRow).title = "gadget" →
      (add_product clockDB "gadget" "g" 7).1.map
        (fun r => (r.created_at, r.updated_at)) = some (0, 0)) :=
  timestamps_assigned_by_storage clockDB 2 1 "Bob" "uk" "gadget" "g" none none none 7
    ⟨1, "Alice", some "al", some "111", "en", none, 0, 0⟩
    ⟨1, "widget", some "d", 100, 0, 0⟩ (by decide) (by decide)

/-- Pairwise-distinct titles survive inserting a product with a fresh
title. -/
theorem pairwise_titles_append (db : DB) (t : String) (row : ProductRow)
    (hnd : db.products.Pairwise (fun a b => a.title ≠ b.title))
    (hrow : row.title = t) (hnew : ∀ p ∈ db.products, p.title ≠ t) :
    (db.products ++ [row]).Pairwise (fun a b => a.title ≠ b.title) := by
  refine List.pairwise_append.mpr ⟨hnd, List.pairwise_singleton _ _, ?_⟩
  intro a ha b hb
  rcases List.mem_singleton.mp hb with rfl
  rw [hrow]
  exact hnew a ha

/-- C4: calling `add_product` twice with the same title (not previously
present) and different prices leaves exactly one Product row with that
title; its price is the second call's price, its description is the first
call's (the conflict path does not update description), and that row is
returned by the second call. -/
theorem add_product_twice_spec (db : DB) (t d1 d2 : String) (p1 p2 : Int)
    (hnd : db.products.Pairwise (fun a b => a.title ≠ b.title))
    (hnew : ∀ p ∈ db.products, p.title ≠ t) :
    (add_product (add_product db t d1 p1).2 t d2 p2).2.products.filter
        (fun p => p.title == t) =
      [⟨db.next_product_id, t, some d1, p2, db.now, db.now⟩] ∧
    (add_product (add_product db t d1 p1).2 t d2 p2).1 =
      some ⟨db.next_product_id, t, some d1, p2, db.now, db.now⟩ ∧
    (⟨db.next_product_id, t, some d1, p2, db.now, db.now⟩ : ProductRow).price = p2 ∧
    (⟨db.next_product_id, t, some d1, p2, db.now, db.now⟩ : ProductRow).description =
      some d1 := by
  have h1 := add_product_insert_eq db t d1 p1 hnew
  have hrow : (⟨db.next_product_id, t, some d1, p1, db.now, db.now⟩ : ProductRow).title = t :=
    rfl
  have hnd1 : (add_product db t d1 p1).2.products.Pairwise
      (fun a b => a.title ≠ b.title) := by
    rw [h1]
    exact pairwise_titles_append db t _ hnd hrow hnew
  have hmem1 : (⟨db.next_product_id, t, some d1, p1, db.now, db.now⟩ : ProductRow) ∈
      (add_product db t d1 p1).2.products := by
    rw [h1]
    exact List.mem_append_right _ (List.mem_singleton.mpr rfl)
  have h2 := add_product_conflict_spec (add_product db t d1 p1).2 t d2 p2
    ⟨db.next_product_id, t, some d1, p1, db.now, db.now⟩ hnd1 hmem1 rfl
  exact ⟨h2.2.1, h2.1, rfl, rfl⟩

/-- C4 witness: the double-upsert specification at a concrete (empty)
database. -/
theorem add_product_twice_witness :
    (add_product (add_product (⟨[], [], [], [], 1, 1, 0⟩ : DB) "w" "first" 100).2
        "w" "second" 250).2.products.filter (fun p => p.title == "w") =
      [⟨1, "w", some "first", 250, 0, 0⟩] ∧
    (add_product (add_product (⟨[], [], [], [], 1, 1, 0⟩ : DB) "w" "first" 100).2
        "w" "second" 250).1 =
      some ⟨1, "w", some "first", 250, 0, 0⟩ ∧
    (⟨1, "w", some "first", 250, 0, 0⟩ : ProductRow).price = 250 ∧
    (⟨1, "w", some "first", 250, 0, 0⟩ : ProductRow).description = some "first" :=
  add_product_twice_spec ⟨[], [], [], [], 1, 1, 0⟩ "w" "first" "second" 100 250
    (by decide) (by decide)

/-- One step of `add_order_product`: under the composite-primary-key
invariant (no two rows share an `(order_id, product_id)` pair), the rows
matching the pair afterwards are exactly the one upserted row carrying the
given quantity, and the invariant is preserved. -/
theorem add_order_product_state (db : DB) (oid pid q : Int)
    (hinv : db.order_products.Pairwise
      (fun a b => ¬(a.order_id = b.order_id ∧ a.product_id = b.product_id))) :
    (add_order_product db oid pid q).2.order_products.filter
        (fun r => r.order_id == oid && r.product_id == pid) = [⟨oid, pid, q⟩] ∧
    (add_order_product db oid pid q).2.order_products.Pairwise
      (fun a b => ¬(a.order_id = b.order_id ∧ a.product_id = b.product_id)) := by
  have hkeys : ∀ r : OrderProductRow,
      ((if r.order_id == oid && r.product_id == pid then
          { r with quantity := q } else r) : OrderProductRow).order_id = r.order_id ∧
      ((if r.order_id == oid && r.product_id == pid then
          { r with quantity := q } else r) : OrderProductRow).product_id = r.product_id := by
    intro r
    by_cases h : (r.order_id == oid && r.product_id == pid) = true <;> simp [h]
  cases hfind : db.order_products.find?
      (fun r => r.order_id == oid && r.product_id == pid) with
  | none =>
      have hnone : ∀ r ∈ db.order_products,
          ¬(r.order_id == oid && r.product_id == pid) = true :=
        fun r hr => by simpa using List.find?_eq_none.mp hfind r hr
      constructor
      · simp only [add_order_product, hfind]
        rw [List.filter_append, List.filter_eq_nil_iff.mpr hnone]
        simp
      · simp only [add_order_product, hfind]
        refine List.pairwise_append.mpr ⟨hinv, List.pairwise_singleton _ _, ?_⟩
        intro a ha b hb
        rcases List.mem_singleton.mp hb with rfl
        intro hcon
        exact hnone a ha (by simp [hcon.1, hcon.2])
  | some r0 =>
      have hmem : r0 ∈ db.order_products := List.mem_of_find?_eq_some hfind
      have hp := @List.find?_some OrderProductRow
        (fun r => r.order_id == oid && r.product_id == pid) r0 db.order_products hfind
      have hpids : r0.order_id = oid ∧ r0.product_id = pid := by simpa using hp
      have huniq : db.order_products.Pairwise (fun a b =>
          ¬((a.order_id == oid && a.product_id == pid) = true ∧
            (b.order_id == oid && b.product_id == pid) = true)) := by
        refine hinv.imp ?_
        intro a b hab hcon
        rcases hcon with ⟨ha, hb⟩
        simp only [Bool.and_eq_true, beq_iff_eq] at ha hb
        exact hab ⟨ha.1.trans hb.1.symm, ha.2.trans hb.2.symm⟩
      have hupd := upsert_find
        (fun r : OrderProductRow => r.order_id == oid && r.product_id == pid)
        (fun r => { r with quantity := q })
        (fun a ha => by
          simp only [Bool.and_eq_true, beq_iff_eq] at ha ⊢
          exact ha)
        hmem hp huniq
      have hrow : ({ r0 with quantity := q } : OrderProductRow) = ⟨oid, pid, q⟩ := by
        cases r0
        simp only [OrderProductRow.mk.injEq]
        exact ⟨hpids.1, hpids.2, trivial⟩
      constructor
      · simp only [add_order_product, hfind]
        rw [hupd.1]
        simpa using hrow
      · simp only [add_order_product, hfind]
        refine List.pairwise_map.mpr (hinv.imp ?_)
        intro a b hab hcon
        exact hab ⟨((hkeys a).1.symm.trans hcon.1).trans (hkeys b).1,
                   ((hkeys a).2.symm.trans hcon.2).trans (hkeys b).2⟩

/-- Any sequence of `add_order_product` calls preserves the one-row-per
`(order_id, product_id)` invariant. -/
theorem add_order_product_seq_pairwise (calls : List (Int × Int × Int)) (db : DB)
    (hinv : db.order_products.Pairwise
      (fun a b => ¬(a.order_id = b.order_id ∧ a.product_id = b.product_id))) :
    (calls.foldl (fun d c => (add_order_product d c.1 c.2.1 c.2.2).2) db).order_products.Pairwise
      (fun a b => ¬(a.order_id = b.order_id ∧ a.product_id = b.product_id)) := by
  induction calls generalizing db with
  | nil => exact hinv
  | cons c calls ih =>
      exact ih _ (add_order_product_state db c.1 c.2.1 c.2.2 hinv).2

/-- C5: in a database respecting the composite primary key, every sequence
of `add_order_product` calls preserves at-most-one-row-per-pair, and two
calls with the same `(order_id, product_id)` and different quantities leave
exactly one row for the pair, carrying the second call's quantity. -/
theorem add_order_product_upsert_spec (db : DB) (oid pid q1 q2 : Int)
    (hinv : db.order_products.Pairwise
      (fun a b => ¬(a.order_id = b.order_id ∧ a.product_id = b.product_id))) :
    (∀ calls : List (Int × Int × Int),
      (calls.foldl (fun d c => (add_order_product d c.1 c.2.1 c.2.2).2)
        db).order_products.Pairwise
          (fun a b => ¬(a.order_id = b.order_id ∧ a.product_id = b.product_id))) ∧
    (add_order_product (add_order_product db oid pid q1).2 oid pid q2).2.order_products.filter
        (fun r => r.order_id == oid && r.product_id == pid) = [⟨oid, pid, q2⟩] := by
  have h1 := add_order_product_state db oid pid q1 hinv
  have h2 := add_order_product_state (add_order_product db oid pid q1).2 oid pid q2 h1.2
  exact ⟨fun calls => add_order_product_seq_pairwise calls db hinv, h2.1⟩

/-- C5 witness: the pair-upsert specification on a concrete database that
already holds an unrelated line item. -/
theorem add_order_product_upsert_witness :
    (∀ calls : List (Int × Int × Int),
      (calls.foldl (fun d c => (add_order_product d c.1 c.2.1 c.2.2).2)
        (⟨[], [], [], [⟨9, 9, 1⟩], 1, 1, 0⟩ : DB)).order_products.Pairwise
          (fun a b => ¬(a.order_id = b.order_id ∧ a.product_id = b.product_id))) ∧
    (add_order_product
        (add_order_product (⟨[], [], [], [⟨9, 9, 1⟩], 1, 1, 0⟩ : DB) 1 2 5).2
        1 2 8).2.order_products.filter
      (fun r => r.order_id == 1 && r.product_id == 2) = [⟨1, 2, 8⟩] :=
  add_order_product_upsert_spec ⟨[], [], [], [⟨9, 9, 1⟩], 1, 1, 0⟩ 1 2 5 8 (by decide)

/-- C6: `add_user` performs no conflict resolution: when a row with the
identity exists it fails with the primary-key constraint-violation error,
surfaced unchanged; otherwise it appends exactly the one new row (and, the
Python method being `-> None`, returns no value beyond the new state). -/
theorem add_user_spec (db : DB) (tid : Int) (fn lc : String)
    (un pn : Option String) (rid : Option Int) :
    ((∃ u ∈ db.users, u.telegram_id = tid) →
      add_user db tid fn lc un pn rid =
        Except.error (DbError.uniqueViolation "users_pkey")) ∧
    ((∀ u ∈ db.users, u.telegram_id ≠ tid) →
      add_user db tid fn lc un pn rid =
        Except.ok { db with users := db.users ++
          [⟨tid, fn, un, pn, lc, rid, db.now, db.now⟩] }) := by
  constructor
  · intro h
    rcases h with ⟨u, hu, hid⟩
    have hany : db.users.any (fun u => u.telegram_id == tid) = true :=
      List.any_eq_true.mpr ⟨u, hu, by simp [hid]⟩
    simp [add_user, hany]
  · intro h
    have hany : db.users.any (fun u => u.telegram_id == tid) = false := by
      rw [List.any_eq_false]
      intro u hu
      simp [h u hu]
    simp [add_user, hany]

/-- C6 witness: the insert/conflict behaviour of `add_user` on a concrete
one-user database. -/
theorem add_user_witness :
    add_user aliceDB 1 "Dup" "en" none none none =
      Except.error (DbError.uniqueViolation "users_pkey") ∧
    add_user aliceDB 2 "Eve" "en" none none none =
      Except.ok { aliceDB with users := aliceDB.users ++
        [⟨2, "Eve", none, none, "en", none, aliceDB.now, aliceDB.now⟩] } :=
  ⟨(add_user_spec aliceDB 1 "Dup" "en" none none none).1 ⟨aliceRow, by decide, by decide⟩,
   (add_user_spec aliceDB 2 "Eve" "en" none none none).2 (by decide)⟩

/-- C7: for an identity with no matching User row, `get_user_by_id` returns
the empty result and `get_user_language_code` returns absence; both are
total functions of the database state, so neither can raise for "not
found". -/
theorem lookup_missing_user_spec (db : DB) (tid : Int)
    (h : ∀ u ∈ db.users, u.telegram_id ≠ tid) :
    get_user_by_id db tid = none ∧ get_user_language_code db tid = none := by
  have hfind : db.users.find? (fun u => u.telegram_id == tid) = none :=
    List.find?_eq_none.mpr (fun x hx => by simp [h x hx])
  exact ⟨hfind, by simp [get_user_language_code, hfind]⟩

/-- C7 witness: the missing-identity lookups on a concrete database. -/
theorem lookup_missing_user_witness :
    get_user_by_id aliceDB 7 = none ∧ get_user_language_code aliceDB 7 = none :=
  lookup_missing_user_spec aliceDB 7 (by decide)

/-- C8: `get_all_users_advanced` returns at most 10 rows; every returned
row has language code en or uk, a user name containing "john" case
insensitively, and a strictly positive identity; and the rows are ordered
by creation time descending. -/
theorem get_all_users_advanced_spec (db : DB) :
    (get_all_users_advanced db).length ≤ 10 ∧
    (∀ u ∈ get_all_users_advanced db,
      (u.language_code = "en" ∨ u.language_code = "uk") ∧
      ilikeContains "john" u.user_name = true ∧
      0 < u.telegram_id) ∧
    (get_all_users_advanced db).Pairwise (fun a b => b.created_at ≤ a.created_at) := by
  refine ⟨List.length_take_le _ _, ?_, ?_⟩
  · intro u hu
    have hu1 := List.mem_mergeSort.mp (List.mem_of_mem_take hu)
    have hu2 := List.mem_filter.mp hu1
    have hpos : 0 < u.telegram_id := by simpa using hu2.2
    have hu3 := List.mem_filterMap.mp hu2.1
    rcases hu3 with ⟨k, _, hfind⟩
    have hu4 := List.mem_of_find?_eq_some hfind
    have hu5 := (List.mem_filter.mp hu4).2
    simp only [Bool.and_eq_true, Bool.or_eq_true, beq_iff_eq] at hu5
    exact ⟨hu5.1, hu5.2, hpos⟩
  · have htrans : ∀ a b c : UserRow,
        decide (b.created_at ≤ a.created_at) = true →
        decide (c.created_at ≤ b.created_at) = true →
        decide (c.created_at ≤ a.created_at) = true := by
      intro a b c hab hbc
      simp only [decide_eq_true_eq] at hab hbc ⊢
      exact le_trans hbc hab
    have htotal : ∀ a b : UserRow,
        (decide (b.created_at ≤ a.created_at) ||
         decide (a.created_at ≤ b.created_at)) = true := by
      intro a b
      rcases Nat.le_total b.created_at a.created_at with h | h <;> simp [h]
    have hsorted := List.sorted_mergeSort htrans htotal
      ((groupKeys (fun u => u.telegram_id) (db.users.filter (fun u =>
          (u.language_code == "en" || u.language_code == "uk") &&
          ilikeContains "john" u.user_name))).filterMap
        (fun k => (db.users.filter (fun u =>
          (u.language_code == "en" || u.language_code == "uk") &&
          ilikeContains "john" u.user_name)).find? (fun u => u.telegram_id == k))
        |>.filter (fun u => decide (0 < u.telegram_id)))
    have hsorted2 := hsorted.imp (fun h => by simpa using h)
    exact hsorted2.sublist (List.take_sublist _ _)

/-- Dropping a column right after adding it restores the schema exactly,
provided table names are distinct (as in any live PostgreSQL schema). -/
theorem op_drop_column_inverts_add (s : Schema) (tname : String) (c : Column)
    (s1 : Schema) (hnd : s.tables.Pairwise (fun a b => a.name ≠ b.name))
    (h : op_add_column s tname c = Except.ok s1) :
    op_drop_column s1 tname c.name = Except.ok s := by
  cases hfind : s.tables.find? (fun t => t.name == tname) with
  | none => simp [op_add_column, hfind] at h
  | some t =>
    have hmem : t ∈ s.tables := List.mem_of_find?_eq_some hfind
    have hp := @List.find?_some TableSchema (fun t => t.name == tname) t s.tables hfind
    by_cases hdup : t.columns.any (fun col => col.name == c.name) = true
    · simp [op_add_column, hfind, hdup] at h
    · have hs1 : s1 = ⟨s.tables.map (fun t' =>
          if t'.name == tname then { t' with columns := t'.columns ++ [c] }
          else t')⟩ := by
        simp only [op_add_column, hfind, hdup, Bool.false_eq_true, if_false] at h
        exact (Except.ok.inj h).symm
      have huniq : s.tables.Pairwise (fun a b =>
          ¬((a.name == tname) = true ∧ (b.name == tname) = true)) := by
        refine hnd.imp ?_
        intro a b hab hcon
        rcases hcon with ⟨ha, hb⟩
        rw [beq_iff_eq] at ha hb
        exact hab (ha.trans hb.symm)
      have hupd := upsert_find (fun t : TableSchema => t.name == tname)
        (fun t => { t with columns := t.columns ++ [c] })
        (fun a ha => by simpa using ha) hmem hp huniq
      have hnocol : ∀ col ∈ t.columns, ¬(col.name == c.name) = true :=
        List.any_eq_false.mp (Bool.not_eq_true _ ▸ (by simpa using hdup))
      have hanynew : (({ t with columns := t.columns ++ [c] } : TableSchema).columns.any
          (fun col => col.name == c.name)) = true := by
        simp
      rw [hs1]
      simp only [op_drop_column, hupd.2, hanynew, if_true]
      have hcomp : ∀ a ∈ s.tables,
          ((fun t' => if t'.name == tname then
              { t' with columns := t'.columns.filter (fun col => col.name != c.name) }
            else t')
            ((fun t' => if t'.name == tname then { t' with columns := t'.columns ++ [c] }
              else t') a)) = a := by
        intro a ha
        by_cases hpa : (a.name == tname) = true
        · have hat : a = t := by
            have : a ∈ s.tables.filter (fun t => t.name == tname) :=
              List.mem_filter.mpr ⟨ha, hpa⟩
            rw [filter_eq_singleton_of_uniq hmem hp huniq] at this
            exact List.mem_singleton.mp this
          subst hat
          have hfcols : (a.columns ++ [c]).filter (fun col => col.name != c.name) =
              a.columns := by
            rw [List.filter_append]
            have h1 : a.columns.filter (fun col => col.name != c.name) = a.columns :=
              List.filter_eq_self.mpr (fun col hcol => by
                simpa using hnocol col hcol)
            have h2 : ([c] : List Column).filter (fun col => col.name != c.name) = [] := by
              simp
            rw [h1, h2, List.append_nil]
          simp only [hpa, if_true]
          simp only [hfcols]
        · simp only [hpa, Bool.false_eq_true, if_false]
      rw [List.map_map]
      have hmap : s.tables.map ((fun t' => if t'.name == tname then
          { t' with columns := t'.columns.filter (fun col => col.name != c.name) }
          else t') ∘ (fun t' => if t'.name == tname then
          { t' with columns := t'.columns ++ [c] } else t')) = s.tables := by
        refine Eq.trans (List.map_congr_left ?_) (List.map_id s.tables)
        intro a ha
        exact hcomp a ha
      rw [hmap]

/-- Dropping a unique constraint right after creating it restores the
schema exactly, provided table names are distinct. -/
theorem op_drop_constraint_inverts_create (s : Schema) (cname tname : String)
    (cols : List String) (s1 : Schema)
    (hnd : s.tables.Pairwise (fun a b => a.name ≠ b.name))
    (h : op_create_unique_constraint s cname tname cols = Except.ok s1) :
    op_drop_constraint s1 cname tname = Except.ok s := by
  cases hfind : s.tables.find? (fun t => t.name == tname) with
  | none => simp [op_create_unique_constraint, hfind] at h
  | some t =>
    have hmem : t ∈ s.tables := List.mem_of_find?_eq_some hfind
    have hp := @List.find?_some TableSchema (fun t => t.name == tname) t s.tables hfind
    by_cases hdup : t.uniques.any (fun uc => uc.name == cname) = true
    · simp [op_create_unique_constraint, hfind, hdup] at h
    · have hs1 : s1 = ⟨s.tables.map (fun t' =>
          if t'.name == tname then { t' with uniques := t'.uniques ++ [⟨cname, cols⟩] }
          else t')⟩ := by
        simp only [op_create_unique_constraint, hfind, hdup, Bool.false_eq_true,
          if_false] at h
        exact (Except.ok.inj h).symm
      have huniq : s.tables.Pairwise (fun a b =>
          ¬((a.name == tname) = true ∧ (b.name == tname) = true)) := by
        refine hnd.imp ?_
        intro a b hab hcon
        rcases hcon with ⟨ha, hb⟩
        rw [beq_iff_eq] at ha hb
        exact hab (ha.trans hb.symm)
      have hupd := upsert_find (fun t : TableSchema => t.name == tname)
        (fun t => { t with uniques := t.uniques ++ [⟨cname, cols⟩] })
        (fun a ha => by simpa using ha) hmem hp huniq
      have hnouc : ∀ uc ∈ t.uniques, ¬(uc.name == cname) = true :=
        List.any_eq_false.mp (Bool.not_eq_true _ ▸ (by simpa using hdup))
      have hanynew : (({ t with uniques := t.uniques ++ [⟨cname, cols⟩] } :
          TableSchema).uniques.any (fun uc => uc.name == cname)) = true := by
        simp
      rw [hs1]
      simp only [op_drop_constraint, hupd.2, hanynew, if_true]
      have hcomp : ∀ a ∈ s.tables,
          ((fun t' => if t'.name == tname then
              { t' with uniques := t'.uniques.filter (fun uc => uc.name != cname) }
            else t')
            ((fun t' => if t'.name == tname then
              { t' with uniques := t'.uniques ++ [⟨cname, cols⟩] }
              else t') a)) = a := by
        intro a ha
        by_cases hpa : (a.name == tname) = true
        · have hat : a = t := by
            have : a ∈ s.tables.filter (fun t => t.name == tname) :=
              List.mem_filter.mpr ⟨ha, hpa⟩
            rw [filter_eq_singleton_of_uniq hmem hp huniq] at this
            exact List.mem_singleton.mp this
          subst hat
          have hfucs : ((a.uniques ++ ([⟨cname, cols⟩] : List UniqueConstraint)).filter
              (fun uc => uc.name != cname)) = a.uniques := by
            rw [List.filter_append]
            have h1 : a.uniques.filter (fun uc => uc.name != cname) = a.uniques :=
              List.filter_eq_self.mpr (fun uc hcuc => by
                simpa using hnouc uc hcuc)
            have h2 : (([⟨cname, cols⟩] : List UniqueConstraint).filter
                (fun uc => uc.name != cname)) = [] := by
              simp
            rw [h1, h2, List.append_nil]
          simp only [hpa, if_true]
          simp only [hfucs]
        · simp only [hpa, Bool.false_eq_true, if_false]
      rw [List.map_map]
      have hmap : s.tables.map ((fun t' => if t'.name == tname then
          { t' with uniques := t'.uniques.filter (fun uc => uc.name != cname) }
          else t') ∘ (fun t' => if t'.name == tname then
          { t' with uniques := t'.uniques ++ [⟨cname, cols⟩] } else t')) = s.tables := by
        refine Eq.trans (List.map_congr_left ?_) (List.map_id s.tables)
        intro a ha
        exact hcomp a ha
      rw [hmap]

/-- C9: for both recorded migration deltas — adding the nullable
`phone_number` column to `users`, and adding the `products_title_key`
unique constraint — applying the downgrade right after a successful
upgrade restores the schema exactly. -/
theorem migration_downgrade_inverts_upgrade (s s1 : Schema)
    (hnd : s.tables.Pairwise (fun a b => a.name ≠ b.name)) :
    (upgrade_436f06e6408d s = Except.ok s1 → downgrade_436f06e6408d s1 = Except.ok s) ∧
    (upgrade_fc2f1e36c98c s = Except.ok s1 → downgrade_fc2f1e36c98c s1 = Except.ok s) := by
  constructor
  · intro h
    exact op_drop_column_inverts_add s "users" ⟨"phone_number", "VARCHAR(50)", true⟩ s1 hnd h
  · intro h
    exact op_drop_constraint_inverts_create s "products_title_key" "products" ["title"] s1
      hnd h

/-- The pre-migration schema used to exercise the two deltas. -/
def baseSchema : Schema :=
  ⟨[⟨"users", [⟨"telegram_id", "BIGINT", false⟩], []⟩,
    ⟨"products", [⟨"title", "VARCHAR(255)", false⟩], []⟩]⟩

/-- `baseSchema` after the `436f06e6408d` upgrade. -/
def phoneSchema : Schema :=
  ⟨[⟨"users", [⟨"telegram_id", "BIGINT", false⟩,
               ⟨"phone_number", "VARCHAR(50)", true⟩], []⟩,
    ⟨"products", [⟨"title", "VARCHAR(255)", false⟩], []⟩]⟩

/-- `baseSchema` after the `fc2f1e36c98c` upgrade. -/
def titleKeySchema : Schema :=
  ⟨[⟨"users", [⟨"telegram_id", "BIGINT", false⟩], []⟩,
    ⟨"products", [⟨"title", "VARCHAR(255)", false⟩],
      [⟨"products_title_key", ["title"]⟩]⟩]⟩

/-- C9 witness: both downgrades undo their upgrades on a concrete
schema. -/
theorem migration_downgrade_inverts_upgrade_witness :
    downgrade_436f06e6408d phoneSchema = Except.ok baseSchema ∧
    downgrade_fc2f1e36c98c titleKeySchema = Except.ok baseSchema :=
  ⟨(migration_downgrade_inverts_upgrade baseSchema phoneSchema (by decide)).1 rfl,
   (migration_downgrade_inverts_upgrade baseSchema titleKeySchema (by decide)).2 rfl⟩

/-- Membership in the relationship-walking four-way join, characterised
against the four base tables. -/
theorem mem_relationships_iff (db : DB) (tid : Int)
    (x : ProductRow × OrderRow × Option String × Int) :
    x ∈ get_all_user_orders_relationships db tid ↔
      ∃ u ∈ db.users, ∃ o ∈ db.orders, ∃ op ∈ db.order_products, ∃ p ∈ db.products,
        u.telegram_id = tid ∧ o.user_id = u.telegram_id ∧ op.order_id = o.order_id ∧
        p.product_id = op.product_id ∧ x = (p, o, u.user_name, op.quantity) := by
  simp only [get_all_user_orders_relationships, List.mem_flatMap, List.mem_filter,
    List.mem_map, beq_iff_eq]
  constructor
  · rintro ⟨u, ⟨hu, hut⟩, o, ⟨ho, hou⟩, op, ⟨hop, hopo⟩, p, ⟨hp, hpp⟩, rfl⟩
    exact ⟨u, hu, o, ho, op, hop, p, hp, hut, hou, hopo, hpp, rfl⟩
  · rintro ⟨u, hu, o, ho, op, hop, p, hp, hut, hou, hopo, hpp, rfl⟩
    exact ⟨u, ⟨hu, hut⟩, o, ⟨ho, hou⟩, op, ⟨hop, hopo⟩, p, ⟨hp, hpp⟩, rfl⟩

/-- Membership in the explicit-`select_from` four-way join, characterised
against the four base tables: the same condition as the relationship
walk. -/
theorem mem_no_relationships_iff (db : DB) (tid : Int)
    (x : ProductRow × OrderRow × Option String × Int) :
    x ∈ get_all_user_orders_no_relationships db tid ↔
      ∃ u ∈ db.users, ∃ o ∈ db.orders, ∃ op ∈ db.order_products, ∃ p ∈ db.products,
        u.telegram_id = tid ∧ o.user_id = u.telegram_id ∧ op.order_id = o.order_id ∧
        p.product_id = op.product_id ∧ x = (p, o, u.user_name, op.quantity) := by
  simp only [get_all_user_orders_no_relationships, List.mem_flatMap, List.mem_filter,
    List.mem_map, Bool.and_eq_true, beq_iff_eq]
  constructor
  · rintro ⟨p, hp, op, ⟨hop, hopp⟩, o, ⟨ho, hoo⟩, u, ⟨hu, huo, hut⟩, rfl⟩
    exact ⟨u, hu, o, ho, op, hop, p, hp, hut, huo.symm, hoo.symm, hopp.symm, rfl⟩
  · rintro ⟨u, hu, o, ho, op, hop, p, hp, hut, hou, hopo, hpp, rfl⟩
    exact ⟨p, hp, op, ⟨hop, hpp.symm⟩, o, ⟨ho, hopo.symm⟩, u, ⟨hu, hou.symm, hut⟩, rfl⟩

/-- Membership in the two-way `users`-`orders` join. -/
theorem mem_user_full_iff (db : DB) (tid : Int) (x : OrderRow × UserRow) :
    x ∈ get_all_user_orders_user_full db tid ↔
      ∃ u ∈ db.users, ∃ o ∈ db.orders,
        u.telegram_id = tid ∧ o.user_id = u.telegram_id ∧ x = (o, u) := by
  simp only [get_all_user_orders_user_full, List.mem_flatMap, List.mem_filter,
    List.mem_map, beq_iff_eq]
  constructor
  · rintro ⟨u, ⟨hu, hut⟩, o, ⟨ho, hou⟩, rfl⟩
    exact ⟨u, hu, o, ho, hut, hou, rfl⟩
  · rintro ⟨u, hu, o, ho, hut, hou, rfl⟩
    exact ⟨u, ⟨hu, hut⟩, o, ⟨ho, hou⟩, rfl⟩

/-- C2 (amended): the two four-way variants return exactly the same
`(product, order, user_name, quantity)` tuples; the two two-way variants
are the same join with `user_name` projected instead of the full user; and
every tuple of the four-way variants projects to an order of the two-way
variants.  (Full equality of the order sets fails: an order with no line
items appears in the two-way variants only — see the counterexample.) -/
theorem get_all_user_orders_variants_agree (db : DB) (tid : Int)
    (p : ProductRow) (o : OrderRow) (n : Option String) (q : Int)
    (hmem : (p, o, n, q) ∈ get_all_user_orders_relationships db tid ∨
            (p, o, n, q) ∈ get_all_user_orders_no_relationships db tid) :
    (p, o, n, q) ∈ get_all_user_orders_relationships db tid ∧
    (p, o, n, q) ∈ get_all_user_orders_no_relationships db tid ∧
    (∃ u, (o, u) ∈ get_all_user_orders_user_full db tid ∧ u.user_name = n) ∧
    get_all_user_orders_user_only_user_name db tid =
      (get_all_user_orders_user_full db tid).map (fun r => (r.1, r.2.user_name)) := by
  have hcanon : ∃ u ∈ db.users, ∃ o' ∈ db.orders, ∃ op ∈ db.order_products,
      ∃ p' ∈ db.products, u.telegram_id = tid ∧ o'.user_id = u.telegram_id ∧
      op.order_id = o'.order_id ∧ p'.product_id = op.product_id ∧
      ((p, o, n, q) : ProductRow × OrderRow × Option String × Int) =
        (p', o', u.user_name, op.quantity) := by
    rcases hmem with h | h
    · exact (mem_relationships_iff db tid _).mp h
    · exact (mem_no_relationships_iff db tid _).mp h
  have hmap : get_all_user_orders_user_only_user_name db tid =
      (get_all_user_orders_user_full db tid).map (fun r => (r.1, r.2.user_name)) := by
    simp only [get_all_user_orders_user_only_user_name, get_all_user_orders_user_full,
      List.map_flatMap, List.map_map]
    rfl
  refine ⟨(mem_relationships_iff db tid _).mpr hcanon,
          (mem_no_relationships_iff db tid _).mpr hcanon, ?_, hmap⟩
  rcases hcanon with ⟨u, hu, o', ho, op, hop, p', hp, hut, hou, _, _, heq⟩
  have heq' : p = p' ∧ o = o' ∧ n = u.user_name ∧ q = op.quantity := by
    simpa [Prod.ext_iff] using heq
  refine ⟨u, ?_, heq'.2.2.1.symm⟩
  rw [heq'.2.1]
  exact (mem_user_full_iff db tid _).mpr ⟨u, hu, o', ho, hut, hou, rfl⟩

/-- A database with one user holding one empty order: the two-way variants
report the order, the four-way variants report nothing. -/
def emptyOrderDB : DB :=
  ⟨[⟨1, "Al", some "al", none, "en", none, 0, 0⟩], [], [⟨1, 1, 0, 0⟩], [], 1, 2, 1⟩

/-- C2 counterexample: on `emptyOrderDB` the order sets of the four
variants differ — `get_all_user_orders_user_full` returns order 1 while
`get_all_user_orders_relationships` returns no tuple at all, so the four
variants do not all carry the same (order, product, quantity) tuples. -/
theorem get_all_user_orders_variants_differ :
    ¬ ((get_all_user_orders_user_full emptyOrderDB 1).map (fun r => r.1.order_id) =
       (get_all_user_orders_relationships emptyOrderDB 1).map
         (fun r => r.2.1.order_id)) := by decide

/-- A database with the full user–order–line-item–product chain. -/
def chainDB : DB :=
  ⟨[⟨1, "Al", some "al", none, "en", none, 0, 0⟩],
   [⟨4, "w", some "d", 100, 0, 0⟩], [⟨2, 1, 0, 0⟩], [⟨2, 4, 3⟩], 5, 3, 1⟩

/-- C2 witness: the amended variant agreement at the concrete
`chainDB`. -/
theorem get_all_user_orders_variants_agree_witness :
    ((⟨4, "w", some "d", 100, 0, 0⟩, ⟨2, 1, 0, 0⟩, some "al", 3) :
        ProductRow × OrderRow × Option String × Int) ∈
      get_all_user_orders_relationships chainDB 1 ∧
    ((⟨4, "w", some "d", 100, 0, 0⟩, ⟨2, 1, 0, 0⟩, some "al", 3) :
        ProductRow × OrderRow × Option String × Int) ∈
      get_all_user_orders_no_relationships chainDB 1 ∧
    (∃ u, ((⟨2, 1, 0, 0⟩ : OrderRow), u) ∈ get_all_user_orders_user_full chainDB 1 ∧
      u.user_name = some "al") ∧
    get_all_user_orders_user_only_user_name chainDB 1 =
      (get_all_user_orders_user_full chainDB 1).map (fun r => (r.1, r.2.user_name)) :=
  get_all_user_orders_variants_agree chainDB 1 ⟨4, "w", some "d", 100, 0, 0⟩
    ⟨2, 1, 0, 0⟩ (some "al") 3 (Or.inl (by decide))

/-- The head of a list is a member. -/
theorem head?_mem_self {l : List α} {a : α} (h : l.head? = some a) : a ∈ l := by
  cases l with
  | nil => cases h
  | cons b l =>
      injection h with h'
      subst h'
      exact List.mem_cons_self _ _

/-- Membership in the `orders`-`users` join. -/
theorem mem_ordersJoinUsers (db : DB) (r : OrderRow × UserRow) :
    r ∈ ordersJoinUsers db ↔
      r.1 ∈ db.orders ∧ r.2 ∈ db.users ∧ r.2.telegram_id = r.1.user_id := by
  simp only [ordersJoinUsers, List.mem_flatMap, List.mem_filter, List.mem_map,
    beq_iff_eq]
  constructor
  · rintro ⟨o, ho, u, ⟨hu, hut⟩, rfl⟩
    exact ⟨ho, hu, hut⟩
  · rintro ⟨ho, hu, hut⟩
    exact ⟨r.1, ho, r.2, ⟨hu, hut⟩, rfl⟩

/-- Membership in the `orderproducts`-`orders`-`users` join. -/
theorem mem_orderProductsJoinOrdersUsers (db : DB)
    (r : OrderProductRow × OrderRow × UserRow) :
    r ∈ orderProductsJoinOrdersUsers db ↔
      r.1 ∈ db.order_products ∧ r.2.1 ∈ db.orders ∧ r.2.2 ∈ db.users ∧
      r.2.1.order_id = r.1.order_id ∧ r.2.2.telegram_id = r.2.1.user_id := by
  simp only [orderProductsJoinOrdersUsers, List.mem_flatMap, List.mem_filter,
    List.mem_map, beq_iff_eq]
  constructor
  · rintro ⟨op, hop, o, ⟨ho, hoo⟩, u, ⟨hu, hut⟩, rfl⟩
    exact ⟨hop, ho, hu, hoo, hut⟩
  · rintro ⟨hop, ho, hu, hoo, hut⟩
    exact ⟨r.1, hop, r.2.1, ⟨ho, hoo⟩, r.2.2, ⟨hu, hut⟩, rfl⟩

/-- Every group key of the product-count reports comes from a joined row:
a user, one of their orders, and a line item of that order; the reported
name is that user's full name. -/
theorem products_report_row_from_join (db : DB) (q : Int) (nm : String)
    (k : Int)
    (hk : k ∈ groupKeys (fun r => r.2.2.telegram_id) (orderProductsJoinOrdersUsers db))
    (heq : (((orderProductsJoinOrdersUsers db).filter
        (fun r => r.2.2.telegram_id == k)).map (fun r => r.1.quantity)).sum = q ∧
      (match ((orderProductsJoinOrdersUsers db).filter
          (fun r => r.2.2.telegram_id == k)).head? with
        | some r => r.2.2.full_name
        | none => "") = nm) :
    ∃ u ∈ db.users, u.full_name = nm ∧ ∃ o ∈ db.orders, o.user_id = u.telegram_id ∧
      ∃ op ∈ db.order_products, op.order_id = o.order_id := by
  rcases List.mem_map.mp (List.mem_dedup.mp hk) with ⟨r0, hr0, hkey⟩
  have hr0f : r0 ∈ (orderProductsJoinOrdersUsers db).filter
      (fun r => r.2.2.telegram_id == k) :=
    List.mem_filter.mpr ⟨hr0, by simp [hkey]⟩
  obtain ⟨r1, hhead, hr1f⟩ : ∃ r1, ((orderProductsJoinOrdersUsers db).filter
      (fun r => r.2.2.telegram_id == k)).head? = some r1 ∧
      r1 ∈ (orderProductsJoinOrdersUsers db).filter
        (fun r => r.2.2.telegram_id == k) := by
    cases hl : ((orderProductsJoinOrdersUsers db).filter
        (fun r => r.2.2.telegram_id == k)) with
    | nil => rw [hl] at hr0f; cases hr0f
    | cons a l => exact ⟨a, rfl, List.mem_cons_self _ _⟩
  have hnm : r1.2.2.full_name = nm := by
    rw [hhead] at heq
    exact heq.2
  have hr1 := (mem_orderProductsJoinOrdersUsers db r1).mp (List.mem_filter.mp hr1f).1
  exact ⟨r1.2.2, hr1.2.2.1, hnm, r1.2.1, hr1.2.1, hr1.2.2.2.2.symm, r1.1, hr1.1,
    hr1.2.2.2.1.symm⟩

/-- C10: the three per-user grouped reports derive a row only from actual
join rows — a user with no order (and, for the product counts, no line
item on any of their orders) is omitted entirely, never reported with a
zero count. -/
theorem grouped_reports_skip_users_without_orders (db : DB) (x : Int) :
    (∀ c k, (c, k) ∈ get_total_number_of_orders_by_user db →
      ∃ o ∈ db.orders, o.user_id = k) ∧
    (∀ q nm, (q, nm) ∈ get_count_of_products_by_user db →
      ∃ u ∈ db.users, u.full_name = nm ∧ ∃ o ∈ db.orders, o.user_id = u.telegram_id ∧
        ∃ op ∈ db.order_products, op.order_id = o.order_id) ∧
    (∀ q nm, (q, nm) ∈ get_count_of_products_greater_than_x_by_user db x →
      ∃ u ∈ db.users, u.full_name = nm ∧ ∃ o ∈ db.orders, o.user_id = u.telegram_id ∧
        ∃ op ∈ db.order_products, op.order_id = o.order_id) ∧
    (∀ u ∈ db.users, (∀ o ∈ db.orders, o.user_id ≠ u.telegram_id) →
      ∀ c, (c, u.telegram_id) ∉ get_total_number_of_orders_by_user db) := by
  have h1 : ∀ c k, (c, k) ∈ get_total_number_of_orders_by_user db →
      ∃ o ∈ db.orders, o.user_id = k := by
    intro c k h
    rcases List.mem_map.mp h with ⟨k', hk', heq⟩
    have hkk : k' = k := congrArg Prod.snd heq
    subst hkk
    rcases List.mem_map.mp (List.mem_dedup.mp hk') with ⟨r0, hr0, hkey⟩
    have hr0' := (mem_ordersJoinUsers db r0).mp hr0
    exact ⟨r0.1, hr0'.1, by rw [← hr0'.2.2, hkey]⟩
  refine ⟨h1, ?_, ?_, ?_⟩
  · intro q nm h
    rcases List.mem_map.mp h with ⟨k, hk, heq⟩
    refine products_report_row_from_join db q nm k hk ?_
    exact ⟨congrArg Prod.fst heq, congrArg Prod.snd heq⟩
  · intro q nm h
    rcases List.mem_map.mp h with ⟨k, hk, heq⟩
    refine products_report_row_from_join db q nm k (List.mem_filter.mp hk).1 ?_
    exact ⟨congrArg Prod.fst heq, congrArg Prod.snd heq⟩
  · intro u hu hno c hc
    rcases h1 c u.telegram_id hc with ⟨o, ho, hid⟩
    exact hno o ho hid
